import Mathlib

/-!
Verification development for the slurm-webapp repository: a cluster-state
dashboard backed by a relational store of nodes, partitions, jobs and their
resource allocations.  The frontend sources (`frontend/src`, the typed
`lib/types.ts` module, the Svelte/Vue components and the API client) are
embedded directly.  The backend ingestion layer (the snapshot reconciler,
resource ledger, allocation graph and staleness clock) is not present in the
sources; only its relational schema (`migrations/20260130212226_init.sql`)
and its HTTP surface (the API client) are.  Those missing parts are modelled
from the specification, with each such definition marked
`Modelled from the spec:` in its doc comment.
-/

/-! ## Status enums, embedded from `frontend/src/lib/types.ts` -/

/-- NodeStatus from `frontend/src/lib/types.ts`: members IDLE = "Idle",
MIX = "Mix", ALLOC = "Alloc", DOWN = "Down". -/
inductive NodeStatus where
  | IDLE
  | MIX
  | ALLOC
  | DOWN
deriving DecidableEq, Repr, Fintype

/-- String value of each NodeStatus member, as written in `types.ts`. -/
def NodeStatus.val : NodeStatus → String
  | .IDLE => "Idle"
  | .MIX => "Mix"
  | .ALLOC => "Alloc"
  | .DOWN => "Down"

/-- JobStatus from `frontend/src/lib/types.ts`: six members with the values
"Pending", "Running", "Completed", "Failed", "Cancelled", "Unknown". -/
inductive JobStatus where
  | PENDING
  | RUNNING
  | COMPLETED
  | FAILED
  | CANCELLED
  | UNKNOWN
deriving DecidableEq, Repr, Fintype

/-- String value of each JobStatus member, as written in `types.ts`. -/
def JobStatus.val : JobStatus → String
  | .PENDING => "Pending"
  | .RUNNING => "Running"
  | .COMPLETED => "Completed"
  | .FAILED => "Failed"
  | .CANCELLED => "Cancelled"
  | .UNKNOWN => "Unknown"

/-- PartitionStatus from `frontend/src/lib/types.ts`: members UP = "Up",
DOWN = "Down", Unknown = "Unknown". -/
inductive PartitionStatus where
  | UP
  | DOWN
  | Unknown
deriving DecidableEq, Repr, Fintype

/-- String value of each PartitionStatus member, as written in `types.ts`. -/
def PartitionStatus.val : PartitionStatus → String
  | .UP => "Up"
  | .DOWN => "Down"
  | .Unknown => "Unknown"

/-- All members of NodeStatus, in declaration order. -/
def nodeStatusAll : List NodeStatus := [.IDLE, .MIX, .ALLOC, .DOWN]

/-- All members of JobStatus, in declaration order. -/
def jobStatusAll : List JobStatus :=
  [.PENDING, .RUNNING, .COMPLETED, .FAILED, .CANCELLED, .UNKNOWN]

/-- All members of PartitionStatus, in declaration order. -/
def partitionStatusAll : List PartitionStatus := [.UP, .DOWN, .Unknown]

/-! ## The jobs view filter, embedded from
`frontend/src/components/JobsView.vue` -/

/-- JobState from the untyped cluster-status module (`src/unnamed/part_001`),
the job state enum used by the Vue views: PENDING, RUNNING, COMPLETED,
FAILED, CANCELLED, UNKNOWN. -/
inductive JobState where
  | PENDING
  | RUNNING
  | COMPLETED
  | FAILED
  | CANCELLED
  | UNKNOWN
deriving DecidableEq, Repr, Fintype

/-- Job record as declared in `src/unnamed/part_001` (the shape consumed by
the Vue jobs view): job_id, user, partition, state, num_nodes, num_cpus,
time_limit, start_time, submit_time. -/
structure Job where
  job_id : String
  user : String
  partition : String
  state : JobState
  num_nodes : Int
  num_cpus : Int
  time_limit : Option String
  start_time : Option String
  submit_time : String
deriving DecidableEq, Repr

/-- Model of JavaScript `hay.startsWith(needle)` on exploded strings: true
when `needle` is a leading segment of `hay`. -/
def jsStartsWith : List Char → List Char → Bool
  | _, [] => true
  | [], _ :: _ => false
  | c :: cs, d :: ds => c == d && jsStartsWith cs ds

/-- Model of JavaScript `hay.includes(needle)` on exploded strings: scans
every suffix of `hay` for a leading occurrence of `needle`. -/
def jsIncludesAux (needle : List Char) : List Char → Bool
  | [] => needle.isEmpty
  | c :: t => jsStartsWith (c :: t) needle || jsIncludesAux needle t

/-- Model of JavaScript `hay.includes(needle)` on strings. -/
def jsIncludes (hay needle : String) : Bool :=
  jsIncludesAux needle.toList hay.toList

/-- Model of JavaScript `s.toLowerCase()`: each character lowered (ASCII
case folding via `Char.toLower`). -/
def jsToLower (s : String) : String := ⟨s.data.map Char.toLower⟩

/-- The `filteredJobs` computed property of
`frontend/src/components/JobsView.vue`: with an empty search string the job
list is returned unchanged; otherwise the search string is lowercased once
and the list is filtered to jobs whose lowercased user, job id, or partition
includes it. -/
def filteredJobs (filterStr : String) (jobs : List Job) : List Job :=
  if filterStr = "" then jobs
  else
    let f := jsToLower filterStr
    jobs.filter (fun j =>
      jsIncludes (jsToLower j.user) f ||
      jsIncludes (jsToLower j.job_id) f ||
      jsIncludes (jsToLower j.partition) f)

/-- Specification-side reading of case-insensitive containment: the
lowercased needle occurs as a contiguous segment of the lowercased
haystack. -/
def containsCI (hay needle : String) : Prop :=
  ∃ pre post,
    (jsToLower hay).toList = pre ++ (jsToLower needle).toList ++ post

/-- Specification-side match predicate for the jobs search box: the search
string occurs case-insensitively in the job user, the job id, or the
partition. -/
def matchesSearch (s : String) (j : Job) : Prop :=
  containsCI j.user s ∨ containsCI j.job_id s ∨ containsCI j.partition s

/-! ## The node card, embedded from `src/unnamed/part_003` (NodeList) -/

/-- Resource record from `src/unnamed/part_001`: res_id, total, allocated. -/
structure Resource where
  res_id : String
  total : Int
  allocated : Int
deriving DecidableEq, Repr

/-- Node record as declared in `src/unnamed/part_001`: name, state, cpus,
real_memory, resources. -/
structure Node where
  name : String
  state : String
  cpus : Int
  real_memory : Int
  resources : List (String × Resource)
deriving DecidableEq, Repr

/-- Minimal JavaScript value universe for the node card rendering model. -/
inductive JsVal where
  | str : String → JsVal
  | num : Int → JsVal
  | arr : List JsVal → JsVal
  | dict : List (String × JsVal) → JsVal

/-- The JavaScript object that a well-typed Node value presents to the
template: exactly the properties declared on the Node type in
`src/unnamed/part_001`. -/
def nodeToObj (n : Node) : List (String × JsVal) :=
  [("name", .str n.name),
   ("state", .str n.state),
   ("cpus", .num n.cpus),
   ("real_memory", .num n.real_memory),
   ("resources", .dict (n.resources.map (fun p =>
      (p.1, JsVal.dict [("res_id", .str p.2.res_id),
                        ("total", .num p.2.total),
                        ("allocated", .num p.2.allocated)]))))]

/-- JavaScript property read: an absent property is `undefined` (`none`),
never an exception. -/
def jsGet (o : List (String × JsVal)) (k : String) : Option JsVal :=
  (o.find? (fun p => p.1 == k)).map (fun p => p.2)

/-- JavaScript string interpolation of a possibly-undefined value. -/
def jsShow : Option JsVal → String
  | none => "undefined"
  | some (.str s) => s
  | some (.num i) => toString i
  | some (.arr _) => "[array]"
  | some (.dict _) => "[object Object]"

/-- JavaScript `.length` access: reading `length` of `undefined` throws a
TypeError; on arrays and strings it is the length. -/
def jsLength : Option JsVal → Except String Int
  | none => .error "TypeError: undefined has no length"
  | some (.str s) => .ok (s.length : Int)
  | some (.arr l) => .ok (l.length : Int)
  | some _ => .ok 0

/-- Rendering of one node card by the NodeList component in
`src/unnamed/part_003`: the template reads node.name, node.state, node.cpus,
node.real_memory, and then guards the features section with
`node.features.length > 0`.  Property reads that yield `undefined` render as
text, but the `.length` access throws. -/
def renderNodeCard (n : Node) : Except String (List String) := do
  let o := nodeToObj n
  let header := jsShow (jsGet o "name")
  let badge := jsShow (jsGet o "state")
  let cpusLine := "CPUs: " ++ jsShow (jsGet o "cpus")
  let memLine := "Memory: " ++ jsShow (jsGet o "real_memory") ++ " MB"
  let featCount ← jsLength (jsGet o "features")
  let featLines :=
    if 0 < featCount then ["Features: " ++ jsShow (jsGet o "features")] else []
  pure ([header, badge, cpusLine, memLine] ++ featLines)

/-- Property names declared on the Node type in `src/unnamed/part_001`. -/
def nodeTypeFields : List String :=
  ["name", "state", "cpus", "real_memory", "resources"]

/-- Property names the NodeList card template of `src/unnamed/part_003`
reads from a node. -/
def nodeCardReadFields : List String :=
  ["name", "state", "cpus", "real_memory", "features"]

/-! ## The API surface, embedded from `src/unnamed/part_007` and
`frontend/src/api.js` -/

/-- Endpoint paths exposed by the API client `src/unnamed/part_007`
(fetchStatus, fetchNodes, fetchJobs, fetchPartitions, fetchUpdatedAt). -/
def apiEndpoints : List String :=
  ["status", "nodes", "jobs", "partitions", "updated_at"]

/-! ## Relational store, embedded from `migrations/20260130212226_init.sql`
(rows of the seven tables; INTEGER columns as Int, TEXT/DATETIME as
String). -/

/-- Row of the `nodes` table: name, status, cpus, cpus_alloc, cpus_idle,
memory, memory_alloc, memory_free, updated_at. -/
structure NodeRow where
  name : String
  status : String
  cpus : Int
  cpus_alloc : Int
  cpus_idle : Int
  memory : Int
  memory_alloc : Int
  memory_free : Int
  updated_at : String
deriving DecidableEq, Repr

/-- Row of the `node_partitions` membership table: (node, partition). -/
structure NodePartRow where
  node : String
  partition : String
deriving DecidableEq, Repr

/-- Row of the `node_resources` table: (node, resource) with available and
total quantities. -/
structure NodeResRow where
  node : String
  resource : String
  available : Int
  total : Int
deriving DecidableEq, Repr

/-- Row of the `partitions` table, following the migration file variant,
which stores the derived aggregate columns total_cpus, total_cpus_alloc,
total_cpus_idle, total_memory, total_memory_alloc, total_memory_free.  (The
other schema variant, `src/unnamed/part_000`, stores qos references and no
aggregates.) -/
structure PartitionRow where
  name : String
  status : String
  total_cpus : Int
  total_cpus_alloc : Int
  total_cpus_idle : Int
  total_memory : Int
  total_memory_alloc : Int
  total_memory_free : Int
  updated_at : String
deriving DecidableEq, Repr

/-- Row of the `jobs` table.  The status TEXT column is modelled by the
closed JobStatus variant. -/
structure JobRow where
  job_id : String
  user : String
  partition : String
  status : JobStatus
  time_limit : Option String
  start_time : Option String
  submit_time : String
  updated_at : String
deriving DecidableEq, Repr

/-- Row of the `job_resources` table: (job_id, resource) with requested and
allocated quantities. -/
structure JobResRow where
  job_id : String
  resource : String
  requested : Int
  allocated : Int
deriving DecidableEq, Repr

/-- Row of the `job_allocations` table: (job_id, node, resource) with the
used quantity.  The snapshot allocation items of the external contract have
exactly this shape and reuse this structure. -/
structure AllocRow where
  job_id : String
  node : String
  resource : String
  used : Int
deriving DecidableEq, Repr

/-- Modelled from the spec: the committed state of the ingestion layer — the
seven tables of the schema plus the Staleness Clock, the monotonic
version/timestamp pair advanced only on successful reconciliation.  The
backend holding this state is not among the sources; its shape follows the
schema and the Staleness Clock contract. -/
structure Store where
  nodes : List NodeRow
  node_partitions : List NodePartRow
  node_resources : List NodeResRow
  partitions : List PartitionRow
  jobs : List JobRow
  job_resources : List JobResRow
  job_allocations : List AllocRow
  version : Nat
  clock_time : Option String
deriving DecidableEq, Repr

/-- The initial, never-reconciled store: all tables empty, version 0, no
staleness timestamp yet. -/
def emptyStore : Store :=
  { nodes := [], node_partitions := [], node_resources := [],
    partitions := [], jobs := [], job_resources := [], job_allocations := [],
    version := 0, clock_time := none }

/-! ## Snapshot input, shaped by the external contract of spec section 6 -/

/-- Per-node resource item of a snapshot: kind, total, available. -/
structure SnapResource where
  resource : String
  total : Int
  available : Int
deriving DecidableEq, Repr

/-- Per-node item of a snapshot: name, status, CPU/memory totals,
per-resource quantities, partition memberships, observation time. -/
structure SnapNode where
  name : String
  status : String
  cpus : Int
  memory : Int
  resources : List SnapResource
  partitions : List String
  observed_at : String
deriving DecidableEq, Repr

/-- Per-partition item of a snapshot: name, status, qos references,
observation time. -/
structure SnapPartition where
  name : String
  status : String
  access_qos : Option String
  resource_qos : Option String
  observed_at : String
deriving DecidableEq, Repr

/-- Per-job resource item of a snapshot: kind, requested, allocated. -/
structure SnapJobResource where
  resource : String
  requested : Int
  allocated : Int
deriving DecidableEq, Repr

/-- Per-job item of a snapshot. -/
structure SnapJob where
  job_id : String
  user : String
  partition : String
  status : JobStatus
  time_limit : Option String
  start_time : Option String
  submit_time : String
  observed_at : String
  resources : List SnapJobResource
deriving DecidableEq, Repr

/-- Modelled from the spec: one complete observation of cluster state, the
input of a reconciliation cycle — one collection per entity kind and the
job-to-node allocation collection. -/
structure Snapshot where
  nodes : List SnapNode
  partitions : List SnapPartition
  jobs : List SnapJob
  allocations : List AllocRow
deriving DecidableEq, Repr

/-! ## Capacity bookkeeping helpers -/

/-- Sum of an integer measure over a list. -/
def sumBy (l : List α) (f : α → Int) : Int := (l.map f).sum

/-- Total `used` quantity over all allocation rows referencing the given
(node, resource) pair — the Allocation Graph lookup "total used per (node,
resource)". -/
def allocUsedOn (allocs : List AllocRow) (n r : String) : Int :=
  sumBy (allocs.filter (fun a => a.node == n && a.resource == r)) (fun a => a.used)

/-- Total capacity recorded for the given (node, resource) pair, summed over
the node-resource rows carrying that key.  Committed states keep this key
unique, so the sum is the single total of the row, or 0 when the pair has no
row. -/
def resTotalOn (rows : List NodeResRow) (n r : String) : Int :=
  sumBy (rows.filter (fun row => row.node == n && row.resource == r))
    (fun row => row.total)

/-- Node-resource rows described by a snapshot, one per (node, resource
item) pair. -/
def snapNodeResRows (s : Snapshot) : List NodeResRow :=
  s.nodes.flatMap (fun sn =>
    sn.resources.map (fun r => ⟨sn.name, r.resource, r.available, r.total⟩))

/-- Node-partition membership rows described by a snapshot. -/
def snapNodePartRows (s : Snapshot) : List NodePartRow :=
  s.nodes.flatMap (fun sn => sn.partitions.map (fun p => ⟨sn.name, p⟩))

/-- Job-resource rows described by a snapshot. -/
def snapJobResRows (s : Snapshot) : List JobResRow :=
  s.jobs.flatMap (fun j =>
    j.resources.map (fun r => ⟨j.job_id, r.resource, r.requested, r.allocated⟩))

/-! ## Validation, modelled from spec sections 4.1 to 4.3 and 7 -/

/-- Modelled from the spec: the reconciliation error taxonomy of section 7.
The backend raising these is not among the sources. -/
inductive RecError where
  | MalformedSnapshot
  | LedgerInvariantViolation
  | CapacityExceeded
  | ReconciliationInProgress
  | ReconciliationTimeout
deriving DecidableEq, Repr

/-- Modelled from the spec: duplicate-key rejection of section 4.1 — node
name, job id, partition name, and the (node,resource) / (job,resource) /
(job,node,resource) composites must each be unique within the snapshot. -/
def dupFreeKeys (s : Snapshot) : Bool :=
  decide (s.nodes.map SnapNode.name).Nodup &&
  decide (s.jobs.map SnapJob.job_id).Nodup &&
  decide (s.partitions.map SnapPartition.name).Nodup &&
  decide ((snapNodeResRows s).map (fun r => (r.node, r.resource))).Nodup &&
  decide ((snapJobResRows s).map (fun r => (r.job_id, r.resource))).Nodup &&
  decide (s.allocations.map (fun a => (a.job_id, a.node, a.resource))).Nodup

/-- Modelled from the spec: referential check of section 4.1 — every
allocation must reference a job and a node present in this snapshot. -/
def allocRefsOk (s : Snapshot) : Bool :=
  s.allocations.all (fun a =>
    (s.jobs.map SnapJob.job_id).contains a.job_id &&
    (s.nodes.map SnapNode.name).contains a.node)

/-- Modelled from the spec: section 4.1 job check — a job allocated quantity
exceeding the requested quantity is rejected unless the job is Running or
Completed. -/
def jobAllocPolicyOk (s : Snapshot) : Bool :=
  s.jobs.all (fun j => j.resources.all (fun r =>
    (j.status == JobStatus.RUNNING || j.status == JobStatus.COMPLETED) ||
    decide (r.allocated ≤ r.requested)))

/-- Modelled from the spec: section 4.1 node check — a node per-resource
available quantity exceeding its total is rejected. -/
def nodeResBoundsOk (s : Snapshot) : Bool :=
  s.nodes.all (fun sn => sn.resources.all (fun r => decide (r.available ≤ r.total)))

/-- Modelled from the spec: the MalformedSnapshot pre-commit validation of
section 4.1, the conjunction of the four structural checks. -/
def malformedFree (s : Snapshot) : Bool :=
  dupFreeKeys s && allocRefsOk s && jobAllocPolicyOk s && nodeResBoundsOk s

/-- Modelled from the spec: the Resource Ledger write-time invariants of
sections 3 and 4.2 — node resources satisfy 0 ≤ available ≤ total, job
resources satisfy allocated ≤ requested, and a Pending job has allocated =
0.  A violating write fails with LedgerInvariantViolation. -/
def ledgerOk (s : Snapshot) : Bool :=
  s.nodes.all (fun sn => sn.resources.all (fun r =>
    decide (0 ≤ r.available) && decide (r.available ≤ r.total))) &&
  s.jobs.all (fun j => j.resources.all (fun r =>
    decide (r.allocated ≤ r.requested) &&
    (decide (j.status ≠ JobStatus.PENDING) || decide (r.allocated = 0))))

/-- Modelled from the spec: the Allocation Graph node-capacity check of
sections 3 and 4.3 — for every (node, resource) pair referenced by an
allocation, the summed used quantity may not exceed the node total for that
resource kind.  A violation fails with CapacityExceeded. -/
def capacityOk (s : Snapshot) : Bool :=
  s.allocations.all (fun a =>
    decide (allocUsedOn s.allocations a.node a.resource ≤
      resTotalOn (snapNodeResRows s) a.node a.resource))

/-- Modelled from the spec: pre-commit validation of a snapshot, producing
the first applicable error of the taxonomy, or none when the snapshot is
admissible. -/
def validate (s : Snapshot) : Option RecError :=
  if !(malformedFree s) then some .MalformedSnapshot
  else if !(ledgerOk s) then some .LedgerInvariantViolation
  else if !(capacityOk s) then some .CapacityExceeded
  else none

/-! ## Commit, modelled from spec sections 4.1, 4.4 and 5 -/

/-- Allocated CPUs of a node under a snapshot: the summed `used` of the
cpu-kind allocations placed on it. -/
def cpusAllocOf (s : Snapshot) (sn : SnapNode) : Int :=
  allocUsedOn s.allocations sn.name "cpu"

/-- Allocated memory of a node under a snapshot: the summed `used` of the
memory-kind allocations placed on it. -/
def memAllocOf (s : Snapshot) (sn : SnapNode) : Int :=
  allocUsedOn s.allocations sn.name "memory"

/-- Modelled from the spec: the nodes-table row committed for a snapshot
node — totals from the snapshot item, the alloc counters summed from the
allocations placed on the node, the idle counters their complement, the
last-updated stamp the item observation time. -/
def toNodeRow (s : Snapshot) (sn : SnapNode) : NodeRow :=
  { name := sn.name, status := sn.status, cpus := sn.cpus,
    cpus_alloc := cpusAllocOf s sn,
    cpus_idle := sn.cpus - cpusAllocOf s sn,
    memory := sn.memory,
    memory_alloc := memAllocOf s sn,
    memory_free := sn.memory - memAllocOf s sn,
    updated_at := sn.observed_at }

/-- Snapshot nodes that are members of the given partition. -/
def snapMembers (s : Snapshot) (p : String) : List SnapNode :=
  s.nodes.filter (fun sn => sn.partitions.contains p)

/-- Modelled from the spec: the partitions-table row committed for a
snapshot partition — every aggregate column recomputed by summing the
capacity and allocation figures of the member nodes, never carried over
from the previous version (spec section 4.1, last reconciliation step). -/
def toPartitionRow (s : Snapshot) (sp : SnapPartition) : PartitionRow :=
  { name := sp.name, status := sp.status,
    total_cpus := sumBy (snapMembers s sp.name) (fun sn => sn.cpus),
    total_cpus_alloc := sumBy (snapMembers s sp.name) (cpusAllocOf s),
    total_cpus_idle :=
      sumBy (snapMembers s sp.name) (fun sn => sn.cpus - cpusAllocOf s sn),
    total_memory := sumBy (snapMembers s sp.name) (fun sn => sn.memory),
    total_memory_alloc := sumBy (snapMembers s sp.name) (memAllocOf s),
    total_memory_free :=
      sumBy (snapMembers s sp.name) (fun sn => sn.memory - memAllocOf s sn),
    updated_at := sp.observed_at }

/-- The jobs-table row committed for a snapshot job. -/
def toJobRow (j : SnapJob) : JobRow :=
  { job_id := j.job_id, user := j.user, partition := j.partition,
    status := j.status, time_limit := j.time_limit,
    start_time := j.start_time, submit_time := j.submit_time,
    updated_at := j.observed_at }

/-- Modelled from the spec: the committed state produced by a successful
reconciliation of a full snapshot — entities present in the snapshot are
kept or inserted, entities absent from it are deleted together with their
owned resource, membership and allocation rows (deletion by absence,
cascade), and the Staleness Clock advances.  Since the snapshot is complete
and authoritative, the committed tables are exactly those it describes. -/
def buildState (st : Store) (s : Snapshot) (now : String) : Store :=
  { nodes := s.nodes.map (toNodeRow s),
    node_partitions := snapNodePartRows s,
    node_resources := snapNodeResRows s,
    partitions := s.partitions.map (toPartitionRow s),
    jobs := s.jobs.map toJobRow,
    job_resources := snapJobResRows s,
    job_allocations := s.allocations,
    version := st.version + 1,
    clock_time := some now }

/-- Modelled from the spec: `Reconcile(snapshot) -> (newVersion, error)`.
The pair holds the externally visible store after the call and the call
outcome: on any validation or write failure the store is left unchanged and
the error is reported; on success the atomically committed state becomes
visible and its new version is returned. -/
def reconcile (st : Store) (s : Snapshot) (now : String) :
    Store × Except RecError Nat :=
  match validate s with
  | some e => (st, Except.error e)
  | none =>
    let st2 := buildState st s now
    (st2, Except.ok st2.version)

/-- Committed states of the layer: the initial empty store and everything a
(possibly failing) reconciliation call leads to. -/
inductive Reachable : Store → Prop where
  | init : Reachable emptyStore
  | step (st : Store) (s : Snapshot) (now : String) :
      Reachable st → Reachable (reconcile st s now).1

/-! ## Query accessors.  Their HTTP surface is `src/unnamed/part_007` and
`frontend/src/api.js`; the backend route handlers are not among the
sources, so each accessor is modelled from the spec as a read of the
committed store. -/

/-- Modelled from the spec: the `/api/updated_at` staleness probe behind
`fetchUpdatedAt` of `src/unnamed/part_007` — per the client declaration it
yields a string or null: the Staleness Clock timestamp, with no version
component. -/
def fetchUpdatedAt (st : Store) : Option String := st.clock_time

/-- Modelled from the spec: the `/api/nodes` read behind `fetchNodes`,
returning the committed nodes table. -/
def fetchNodes (st : Store) : List NodeRow := st.nodes

/-- Modelled from the spec: the `/api/jobs` read behind `fetchJobs`,
returning the committed jobs table. -/
def fetchJobs (st : Store) : List JobRow := st.jobs

/-- Modelled from the spec: the `/api/partitions` read behind
`fetchPartitions`, returning the committed partitions table. -/
def fetchPartitions (st : Store) : List PartitionRow := st.partitions

/-- ClusterStatus shape from `frontend/src/lib/types.ts` and
`src/unnamed/part_001`: the full-state payload is the three entity
collections plus the single updated_at string — no version field. -/
structure ClusterStatus where
  nodes : List NodeRow
  jobs : List JobRow
  partitions : List PartitionRow
  updated_at : String
deriving DecidableEq, Repr

/-- Modelled from the spec: the `/api/status` read behind `fetchStatus`,
returning the committed entity tables together with the Staleness Clock
timestamp (serialized as the empty string before any reconciliation). -/
def fetchStatus (st : Store) : ClusterStatus :=
  { nodes := st.nodes, jobs := st.jobs, partitions := st.partitions,
    updated_at := st.clock_time.getD "" }

/-! ## Invariant predicates over committed states -/

/-- Member node rows of a partition in a store, resolved through the
node_partitions membership table. -/
def memberOfPart (st : Store) (p : String) : List NodeRow :=
  st.nodes.filter (fun nr =>
    st.node_partitions.any (fun m => m.node == nr.name && m.partition == p))

/-- Derived-aggregate invariant: every aggregate column of every partition
row equals the corresponding sum over its current member node rows. -/
def PartAggInv (st : Store) : Prop :=
  ∀ p ∈ st.partitions,
    p.total_cpus = sumBy (memberOfPart st p.name) (fun n => n.cpus) ∧
    p.total_cpus_alloc = sumBy (memberOfPart st p.name) (fun n => n.cpus_alloc) ∧
    p.total_cpus_idle = sumBy (memberOfPart st p.name) (fun n => n.cpus_idle) ∧
    p.total_memory = sumBy (memberOfPart st p.name) (fun n => n.memory) ∧
    p.total_memory_alloc = sumBy (memberOfPart st p.name) (fun n => n.memory_alloc) ∧
    p.total_memory_free = sumBy (memberOfPart st p.name) (fun n => n.memory_free)

/-- Node-capacity invariant: for every (node, resource) pair, the summed
used quantity over the job-allocation rows referencing it is at most the
recorded node total for that resource kind. -/
def CapacityInv (st : Store) : Prop :=
  ∀ n r : String,
    allocUsedOn st.job_allocations n r ≤ resTotalOn st.node_resources n r

/-- Job-resource invariant: a job resource row of a Pending job has
allocated = 0, and of a non-Pending job has allocated ≤ requested. -/
def JobResInv (st : Store) : Prop :=
  ∀ j ∈ st.jobs, ∀ row ∈ st.job_resources, row.job_id = j.job_id →
    (j.status = JobStatus.PENDING → row.allocated = 0) ∧
    (j.status ≠ JobStatus.PENDING → row.allocated ≤ row.requested)

/-- No-orphan invariant: every owned row references a present parent — each
node-resource and membership row a present node, each job-resource row a
present job, each allocation row both a present job and a present node. -/
def NoOrphans (st : Store) : Prop :=
  (∀ row ∈ st.node_resources, row.node ∈ st.nodes.map NodeRow.name) ∧
  (∀ row ∈ st.node_partitions, row.node ∈ st.nodes.map NodeRow.name) ∧
  (∀ row ∈ st.job_resources, row.job_id ∈ st.jobs.map JobRow.job_id) ∧
  (∀ a ∈ st.job_allocations,
    a.job_id ∈ st.jobs.map JobRow.job_id ∧ a.node ∈ st.nodes.map NodeRow.name)

/-! ## Helper lemmas -/

/-- Summing a measure over a mapped list is summing the composed measure. -/
theorem sumBy_map (l : List α) (f : α → β) (g : β → Int) :
    sumBy (l.map f) g = sumBy l (fun a => g (f a)) := by
  simp only [sumBy, List.map_map]
  rfl

/-- A sum of pointwise nonnegative measures is nonnegative. -/
theorem sumBy_nonneg {l : List α} {f : α → Int} (h : ∀ x ∈ l, 0 ≤ f x) :
    0 ≤ sumBy l f := by
  unfold sumBy
  apply List.sum_nonneg
  intro x hx
  obtain ⟨a, ha, rfl⟩ := List.mem_map.1 hx
  exact h a ha

/-- Two booleans agreeing as propositions are equal. -/
theorem bool_eq_of_iff {a b : Bool} (h : a = true ↔ b = true) : a = b := by
  revert h
  revert a b
  decide

/-- A passing validation means all three check groups passed. -/
theorem validate_none_checks {s : Snapshot} (h : validate s = none) :
    malformedFree s = true ∧ ledgerOk s = true ∧ capacityOk s = true := by
  unfold validate at h
  by_cases hm : malformedFree s = true
  · by_cases hl : ledgerOk s = true
    · by_cases hc : capacityOk s = true
      · exact ⟨hm, hl, hc⟩
      · simp [hm, hl, hc] at h
    · simp [hm, hl] at h
  · simp [hm] at h

/-- Structural consequences of the MalformedSnapshot checks: unique node
names, unique job ids, and allocations referencing present jobs and
nodes. -/
theorem malformedFree_spec {s : Snapshot} (h : malformedFree s = true) :
    (s.nodes.map SnapNode.name).Nodup ∧
    (s.jobs.map SnapJob.job_id).Nodup ∧
    (∀ a ∈ s.allocations,
      a.job_id ∈ s.jobs.map SnapJob.job_id ∧ a.node ∈ s.nodes.map SnapNode.name) := by
  unfold malformedFree dupFreeKeys allocRefsOk at h
  simp only [Bool.and_eq_true, decide_eq_true_eq, List.all_eq_true,
    and_assoc] at h
  obtain ⟨hn, hj, _, _, _, _, href, _, _⟩ := h
  refine ⟨hn, hj, fun a ha => ?_⟩
  have := href a ha
  simpa using this

/-- Consequences of the Resource Ledger checks: node resources within
bounds, job resources within bounds, Pending jobs unallocated. -/
theorem ledgerOk_spec {s : Snapshot} (h : ledgerOk s = true) :
    (∀ sn ∈ s.nodes, ∀ r ∈ sn.resources, 0 ≤ r.available ∧ r.available ≤ r.total) ∧
    (∀ j ∈ s.jobs, ∀ r ∈ j.resources,
      r.allocated ≤ r.requested ∧ (j.status = JobStatus.PENDING → r.allocated = 0)) := by
  unfold ledgerOk at h
  simp only [Bool.and_eq_true, List.all_eq_true, decide_eq_true_eq,
    Bool.or_eq_true] at h
  obtain ⟨h1, h2⟩ := h
  refine ⟨fun sn hsn r hr => h1 sn hsn r hr, fun j hj r hr => ?_⟩
  obtain ⟨hle, hor⟩ := h2 j hj r hr
  refine ⟨hle, fun hpend => ?_⟩
  rcases hor with hne | hz
  · exact absurd hpend hne
  · exact hz

/-- Consequence of the Allocation Graph capacity check: every allocation's
(node, resource) pair respects the summed-use bound. -/
theorem capacityOk_spec {s : Snapshot} (h : capacityOk s = true) :
    ∀ a ∈ s.allocations,
      allocUsedOn s.allocations a.node a.resource ≤
        resTotalOn (snapNodeResRows s) a.node a.resource := by
  unfold capacityOk at h
  simpa only [List.all_eq_true, decide_eq_true_eq] using h

/-- A failing reconciliation leaves the pair's store component at the prior
store. -/
theorem reconcile_error_store {st : Store} {s : Snapshot} {now : String}
    {e : RecError} (h : (reconcile st s now).2 = Except.error e) :
    (reconcile st s now).1 = st := by
  unfold reconcile at h ⊢
  cases hv : validate s with
  | some e2 => simp [hv]
  | none => simp [hv] at h

/-- A successful reconciliation's store component is the built state. -/
theorem reconcile_ok_store {st : Store} {s : Snapshot} {now : String}
    {v : Nat} (h : (reconcile st s now).2 = Except.ok v) :
    (reconcile st s now).1 = buildState st s now ∧ validate s = none := by
  unfold reconcile at h ⊢
  cases hv : validate s with
  | some e2 => simp [hv] at h
  | none => simp [hv]

/-- With unique node names, the member rows of a partition in the built
state are exactly the rows of the snapshot members. -/
theorem memberOfPart_buildState (st : Store) (s : Snapshot) (now : String)
    (hnd : (s.nodes.map SnapNode.name).Nodup) (p : String) :
    memberOfPart (buildState st s now) p = (snapMembers s p).map (toNodeRow s) := by
  simp only [memberOfPart, buildState]
  rw [List.filter_map]
  unfold snapMembers
  refine congrArg (List.map (toNodeRow s)) ?_
  apply List.filter_congr
  intro sn hsn
  apply bool_eq_of_iff
  constructor
  · intro hq
    simp only [Function.comp, List.any_eq_true, Bool.and_eq_true,
      beq_iff_eq] at hq
    obtain ⟨m, hm, hmn, hmp⟩ := hq
    simp only [snapNodePartRows, List.mem_flatMap, List.mem_map] at hm
    obtain ⟨sn2, hsn2, q, hq2, rfl⟩ := hm
    have hname : sn2.name = sn.name := hmn
    have : sn2 = sn :=
      List.inj_on_of_nodup_map hnd hsn2 hsn hname
    subst this
    subst hmp
    simpa using hq2
  · intro hc
    have hq2 : p ∈ sn.partitions := by simpa using hc
    simp only [Function.comp, List.any_eq_true, Bool.and_eq_true, beq_iff_eq]
    refine ⟨⟨sn.name, p⟩, ?_, rfl, rfl⟩
    simp only [snapNodePartRows, List.mem_flatMap, List.mem_map]
    exact ⟨sn, hsn, p, hq2, rfl⟩

/-- With unique node names, the built state satisfies the
derived-aggregate invariant. -/
theorem partAggInv_buildState (st : Store) (s : Snapshot) (now : String)
    (hnd : (s.nodes.map SnapNode.name).Nodup) :
    PartAggInv (buildState st s now) := by
  intro p hp
  have hps : (buildState st s now).partitions = s.partitions.map (toPartitionRow s) := rfl
  rw [hps] at hp
  obtain ⟨sp, _, rfl⟩ := List.mem_map.1 hp
  rw [memberOfPart_buildState st s now hnd]
  refine ⟨?_, ?_, ?_, ?_, ?_, ?_⟩ <;>
    simp [toPartitionRow, sumBy_map, toNodeRow]

/-- Under the ledger and capacity checks, the built state satisfies the
node-capacity invariant for every (node, resource) pair. -/
theorem capacityInv_buildState (st : Store) (s : Snapshot) (now : String)
    (hl : ledgerOk s = true) (hc : capacityOk s = true) :
    CapacityInv (buildState st s now) := by
  intro n r
  show allocUsedOn s.allocations n r ≤ resTotalOn (snapNodeResRows s) n r
  by_cases hf : s.allocations.filter (fun a => a.node == n && a.resource == r) = []
  · have hzero : allocUsedOn s.allocations n r = 0 := by
      simp [allocUsedOn, hf, sumBy]
    rw [hzero]
    apply sumBy_nonneg
    intro row hrow
    have hrow2 : row ∈ snapNodeResRows s := (List.mem_filter.1 hrow).1
    simp only [snapNodeResRows, List.mem_flatMap, List.mem_map] at hrow2
    obtain ⟨sn, hsn, rr, hrr, rfl⟩ := hrow2
    have hb := (ledgerOk_spec hl).1 sn hsn rr hrr
    exact le_trans hb.1 hb.2
  · obtain ⟨a, ha⟩ := List.exists_mem_of_ne_nil _ hf
    obtain ⟨ha1, ha2⟩ := List.mem_filter.1 ha
    simp only [Bool.and_eq_true, beq_iff_eq] at ha2
    obtain ⟨han, har⟩ := ha2
    have hcap := capacityOk_spec hc a ha1
    rw [han, har] at hcap
    exact hcap

/-- Under unique job ids and the ledger checks, the built state satisfies
the job-resource invariant. -/
theorem jobResInv_buildState (st : Store) (s : Snapshot) (now : String)
    (hnd : (s.jobs.map SnapJob.job_id).Nodup) (hl : ledgerOk s = true) :
    JobResInv (buildState st s now) := by
  intro j hj row hrow hid
  have hj2 : j ∈ s.jobs.map toJobRow := hj
  obtain ⟨sj, hsj, rfl⟩ := List.mem_map.1 hj2
  have hrow2 : row ∈ snapJobResRows s := hrow
  simp only [snapJobResRows, List.mem_flatMap, List.mem_map] at hrow2
  obtain ⟨sj2, hsj2, rr, hrr, rfl⟩ := hrow2
  have heq : sj2 = sj := List.inj_on_of_nodup_map hnd hsj2 hsj hid
  subst heq
  have hspec := (ledgerOk_spec hl).2 sj2 hsj2 rr hrr
  exact ⟨fun hpend => hspec.2 hpend, fun _ => hspec.1⟩

/-- Under the referential checks, the built state has no orphaned owned
rows. -/
theorem noOrphans_buildState (st : Store) (s : Snapshot) (now : String)
    (hm : malformedFree s = true) :
    NoOrphans (buildState st s now) := by
  obtain ⟨_, _, href⟩ := malformedFree_spec hm
  refine ⟨?_, ?_, ?_, ?_⟩
  · intro row hrow
    have hrow2 : row ∈ snapNodeResRows s := hrow
    simp only [snapNodeResRows, List.mem_flatMap, List.mem_map] at hrow2
    obtain ⟨sn, hsn, rr, _, rfl⟩ := hrow2
    show sn.name ∈ (s.nodes.map (toNodeRow s)).map NodeRow.name
    rw [List.map_map]
    exact List.mem_map.2 ⟨sn, hsn, rfl⟩
  · intro row hrow
    have hrow2 : row ∈ snapNodePartRows s := hrow
    simp only [snapNodePartRows, List.mem_flatMap, List.mem_map] at hrow2
    obtain ⟨sn, hsn, q, _, rfl⟩ := hrow2
    show sn.name ∈ (s.nodes.map (toNodeRow s)).map NodeRow.name
    rw [List.map_map]
    exact List.mem_map.2 ⟨sn, hsn, rfl⟩
  · intro row hrow
    have hrow2 : row ∈ snapJobResRows s := hrow
    simp only [snapJobResRows, List.mem_flatMap, List.mem_map] at hrow2
    obtain ⟨sj, hsj, rr, _, rfl⟩ := hrow2
    show sj.job_id ∈ (s.jobs.map toJobRow).map JobRow.job_id
    rw [List.map_map]
    exact List.mem_map.2 ⟨sj, hsj, rfl⟩
  · intro a ha
    have ha2 : a ∈ s.allocations := ha
    obtain ⟨hj, hn⟩ := href a ha2
    constructor
    · show a.job_id ∈ (s.jobs.map toJobRow).map JobRow.job_id
      rw [List.map_map]
      obtain ⟨sj, hsj, hje⟩ := List.mem_map.1 hj
      exact List.mem_map.2 ⟨sj, hsj, hje⟩
    · show a.node ∈ (s.nodes.map (toNodeRow s)).map NodeRow.name
      rw [List.map_map]
      obtain ⟨sn, hsn, hne⟩ := List.mem_map.1 hn
      exact List.mem_map.2 ⟨sn, hsn, hne⟩

/-! ## Claim theorems -/

/-- C1: Atomicity of reconciliation — whenever a Reconcile call fails, for
any reason, the externally visible store after the call is identical to the
store before it (every table, the version and the staleness timestamp
included), so the previously committed version remains the externally
visible state and no partial write escapes the transaction boundary. -/
theorem reconcile_atomic (st : Store) (s : Snapshot) (now : String)
    (e : RecError) (h : (reconcile st s now).2 = Except.error e) :
    (reconcile st s now).1 = st ∧
    (reconcile st s now).1.version = st.version ∧
    fetchStatus (reconcile st s now).1 = fetchStatus st := by
  have hst := reconcile_error_store h
  exact ⟨hst, by rw [hst], by rw [hst]⟩

/-- C2: Partition aggregates are purely derived — in every committed state,
each partition row's six aggregate columns equal the corresponding sums over
its current member node rows, so no aggregate survives as an independent
source of truth from a previous cycle. -/
theorem partition_aggregates_derived (st : Store) (h : Reachable st) :
    PartAggInv st := by
  induction h with
  | init =>
    intro p hp
    simp [emptyStore] at hp
  | step st s now _ ih =>
    cases hv : validate s with
    | some e =>
      have hst : (reconcile st s now).1 = st := by simp [reconcile, hv]
      rw [hst]
      exact ih
    | none =>
      have hst : (reconcile st s now).1 = buildState st s now := by
        simp [reconcile, hv]
      rw [hst]
      have hm := (validate_none_checks hv).1
      exact partAggInv_buildState st s now (malformedFree_spec hm).1

/-- C3: Node capacity conservation — every committed state satisfies the
capacity invariant (for every node and resource kind the summed used
quantity over allocations is at most the recorded total), and a snapshot
that would violate it, when structurally well formed and ledger-clean, is
rejected with CapacityExceeded, leaving the store unchanged rather than
clamping any value. -/
theorem capacity_conserved (st : Store) (s : Snapshot) (now : String) :
    (Reachable st → CapacityInv st) ∧
    (capacityOk s = false → malformedFree s = true → ledgerOk s = true →
      (reconcile st s now).2 = Except.error RecError.CapacityExceeded ∧
      (reconcile st s now).1 = st) := by
  constructor
  · intro h
    induction h with
    | init =>
      intro n r
      simp [emptyStore, CapacityInv, allocUsedOn, resTotalOn, sumBy]
    | step st2 s2 now2 _ ih =>
      cases hv : validate s2 with
      | some e =>
        have hst : (reconcile st2 s2 now2).1 = st2 := by simp [reconcile, hv]
        rw [hst]
        exact ih
      | none =>
        have hst : (reconcile st2 s2 now2).1 = buildState st2 s2 now2 := by
          simp [reconcile, hv]
        rw [hst]
        obtain ⟨_, hl, hc⟩ := validate_none_checks hv
        exact capacityInv_buildState st2 s2 now2 hl hc
  · intro hcap hm hl
    have hv : validate s = some RecError.CapacityExceeded := by
      unfold validate
      simp [hm, hl, hcap]
    constructor
    · simp [reconcile, hv]
    · simp [reconcile, hv]

/-- C4: Job resource invariant — every committed state satisfies the
job-resource predicate (a Pending job's resource rows carry allocated = 0,
a non-Pending job's rows carry allocated ≤ requested), and any Reconcile
call, successful or failed, preserves the predicate. -/
theorem job_resource_invariant (st : Store) (s : Snapshot) (now : String) :
    (Reachable st → JobResInv st) ∧
    (JobResInv st → JobResInv (reconcile st s now).1) := by
  have hstep : ∀ st2 s2 now2, JobResInv st2 → JobResInv (reconcile st2 s2 now2).1 := by
    intro st2 s2 now2 hinv
    cases hv : validate s2 with
    | some e =>
      have hst : (reconcile st2 s2 now2).1 = st2 := by simp [reconcile, hv]
      rw [hst]
      exact hinv
    | none =>
      have hst : (reconcile st2 s2 now2).1 = buildState st2 s2 now2 := by
        simp [reconcile, hv]
      rw [hst]
      obtain ⟨hm, hl, _⟩ := validate_none_checks hv
      exact jobResInv_buildState st2 s2 now2 (malformedFree_spec hm).2.1 hl
  constructor
  · intro h
    induction h with
    | init =>
      intro j hj
      simp [emptyStore] at hj
    | step st2 s2 now2 _ ih => exact hstep st2 s2 now2 ih
  · exact hstep st s now

/-- C5: Deletion cascade — after a successful reconciliation of a full
snapshot, every stored node or job absent from that snapshot is gone from
the committed state, and the committed state holds no orphaned
node-resource, membership, job-resource, or allocation row. -/
theorem deletion_cascade (st : Store) (s : Snapshot) (now : String)
    (v : Nat) (h : (reconcile st s now).2 = Except.ok v) :
    (∀ nr ∈ st.nodes, nr.name ∉ s.nodes.map SnapNode.name →
      nr.name ∉ (reconcile st s now).1.nodes.map NodeRow.name) ∧
    (∀ j ∈ st.jobs, j.job_id ∉ s.jobs.map SnapJob.job_id →
      j.job_id ∉ (reconcile st s now).1.jobs.map JobRow.job_id) ∧
    NoOrphans (reconcile st s now).1 := by
  obtain ⟨hst, hv⟩ := reconcile_ok_store h
  rw [hst]
  have hm := (validate_none_checks hv).1
  refine ⟨?_, ?_, noOrphans_buildState st s now hm⟩
  · intro nr _ habs hmem
    apply habs
    have hmem2 : nr.name ∈ (s.nodes.map (toNodeRow s)).map NodeRow.name := hmem
    rw [List.map_map] at hmem2
    obtain ⟨sn, hsn, hne⟩ := List.mem_map.1 hmem2
    exact List.mem_map.2 ⟨sn, hsn, hne⟩
  · intro j _ habs hmem
    apply habs
    have hmem2 : j.job_id ∈ (s.jobs.map toJobRow).map JobRow.job_id := hmem
    rw [List.map_map] at hmem2
    obtain ⟨sj, hsj, hje⟩ := List.mem_map.1 hmem2
    exact List.mem_map.2 ⟨sj, hsj, hje⟩

/-! ## Concrete scenario data for the witnesses -/

/-- A small valid snapshot: node n1 (8 cpus, 1024 memory, cpu resource 4 of
8 available) in partition batch, running job j1 holding 4 cpus on n1 — the
worked example of spec section 8. -/
def goodSnap : Snapshot :=
  { nodes := [{ name := "n1", status := "mix", cpus := 8, memory := 1024,
                resources := [{ resource := "cpu", total := 8, available := 4 }],
                partitions := ["batch"], observed_at := "t0" }],
    partitions := [{ name := "batch", status := "Up", access_qos := none,
                     resource_qos := none, observed_at := "t0" }],
    jobs := [{ job_id := "j1", user := "alice", partition := "batch",
               status := JobStatus.RUNNING, time_limit := none,
               start_time := some "t0", submit_time := "t0",
               observed_at := "t0",
               resources := [{ resource := "cpu", requested := 4, allocated := 4 }] }],
    allocations := [{ job_id := "j1", node := "n1", resource := "cpu", used := 4 }] }

/-- A malformed snapshot: the same node name appears twice. -/
def badSnap : Snapshot :=
  { nodes := [{ name := "n1", status := "idle", cpus := 8, memory := 1024,
                resources := [], partitions := [], observed_at := "t0" },
              { name := "n1", status := "idle", cpus := 8, memory := 1024,
                resources := [], partitions := [], observed_at := "t0" }],
    partitions := [], jobs := [], allocations := [] }

/-- A snapshot violating only the capacity invariant: job j1 uses 9 cpus on
a node totalling 8. -/
def capBadSnap : Snapshot :=
  { nodes := [{ name := "n1", status := "mix", cpus := 8, memory := 1024,
                resources := [{ resource := "cpu", total := 8, available := 0 }],
                partitions := [], observed_at := "t0" }],
    partitions := [],
    jobs := [{ job_id := "j1", user := "alice", partition := "batch",
               status := JobStatus.RUNNING, time_limit := none,
               start_time := some "t0", submit_time := "t0",
               observed_at := "t0",
               resources := [{ resource := "cpu", requested := 9, allocated := 9 }] }],
    allocations := [{ job_id := "j1", node := "n1", resource := "cpu", used := 9 }] }

/-- The empty but valid snapshot. -/
def emptySnap : Snapshot :=
  { nodes := [], partitions := [], jobs := [], allocations := [] }

/-- A follow-up snapshot in which node n1 and job j1 have been retired:
only the batch partition remains. -/
def dropSnap : Snapshot :=
  { nodes := [],
    partitions := [{ name := "batch", status := "Up", access_qos := none,
                     resource_qos := none, observed_at := "t2" }],
    jobs := [], allocations := [] }

/-- The committed state after reconciling the good snapshot into the empty
store. -/
def store1 : Store := (reconcile emptyStore goodSnap "t1").1

/-- First committed state of the version-probe scenario. -/
def probeStore1 : Store := (reconcile emptyStore emptySnap "t9").1

/-- Second committed state of the version-probe scenario: the same snapshot
reconciled again at the same wall-clock timestamp. -/
def probeStore2 : Store := (reconcile probeStore1 emptySnap "t9").1

/-- Witness for C1: reconciling a duplicate-key snapshot fails with
MalformedSnapshot and leaves the empty store untouched. -/
theorem reconcile_atomic_witness :
    (reconcile emptyStore badSnap "t1").2 = Except.error RecError.MalformedSnapshot ∧
    (reconcile emptyStore badSnap "t1").1 = emptyStore :=
  ⟨rfl, (reconcile_atomic emptyStore badSnap "t1" RecError.MalformedSnapshot rfl).1⟩

/-- Witness for C2: the committed state of the worked example is reachable
and satisfies the derived-aggregate invariant. -/
theorem partition_aggregates_witness :
    Reachable store1 ∧ PartAggInv store1 :=
  ⟨Reachable.step emptyStore goodSnap "t1" Reachable.init,
   partition_aggregates_derived store1
     (Reachable.step emptyStore goodSnap "t1" Reachable.init)⟩

/-- Witness for C3: the worked-example state satisfies the capacity
invariant, and the over-capacity snapshot is rejected with CapacityExceeded
leaving that state intact. -/
theorem capacity_conserved_witness :
    CapacityInv store1 ∧
    (reconcile store1 capBadSnap "t2").2 = Except.error RecError.CapacityExceeded ∧
    (reconcile store1 capBadSnap "t2").1 = store1 :=
  ⟨(capacity_conserved store1 capBadSnap "t2").1
     (Reachable.step emptyStore goodSnap "t1" Reachable.init),
   (capacity_conserved store1 capBadSnap "t2").2 rfl rfl rfl⟩

/-- Witness for C4: the worked-example state satisfies the job-resource
invariant, and a further reconciliation preserves it. -/
theorem job_resource_witness :
    JobResInv store1 ∧ JobResInv (reconcile store1 emptySnap "t2").1 := by
  have h1 := (job_resource_invariant store1 emptySnap "t2").1
    (Reachable.step emptyStore goodSnap "t1" Reachable.init)
  exact ⟨h1, (job_resource_invariant store1 emptySnap "t2").2 h1⟩

/-- Witness for C5: retiring node n1 and job j1 by absence succeeds and the
resulting committed state has no orphaned rows. -/
theorem deletion_cascade_witness :
    (reconcile store1 dropSnap "t2").2 = Except.ok 2 ∧
    NoOrphans (reconcile store1 dropSnap "t2").1 :=
  ⟨rfl, (deletion_cascade store1 dropSnap "t2" 2 rfl).2.2⟩

/-- C6 counterexample: two reachable committed states, one reconciliation
apart and thus of different versions, on which the staleness probe and the
full-snapshot accessor return identical outputs — so neither accessor
yields the version of the last successful reconciliation, only its
timestamp. -/
theorem version_probe_counterexample :
    Reachable probeStore1 ∧ Reachable probeStore2 ∧
    probeStore1.version = 1 ∧ probeStore2.version = 2 ∧
    fetchUpdatedAt probeStore1 = fetchUpdatedAt probeStore2 ∧
    fetchStatus probeStore1 = fetchStatus probeStore2 :=
  ⟨Reachable.step emptyStore emptySnap "t9" Reachable.init,
   Reachable.step probeStore1 emptySnap "t9"
     (Reachable.step emptyStore emptySnap "t9" Reachable.init),
   rfl, rfl, rfl, rfl⟩

/-- C6 (amended): the cheap staleness probe returns the timestamp of the
last successful reconciliation — a successful Reconcile sets it to the
commit time, a failed one leaves it unchanged — and the full-snapshot
accessor returns the committed entity tables together with that same
timestamp; no version number accompanies either. -/
theorem staleness_probe_reports_timestamp (st : Store) (s : Snapshot)
    (now : String) :
    (∀ v, (reconcile st s now).2 = Except.ok v →
      fetchUpdatedAt (reconcile st s now).1 = some now) ∧
    (∀ e, (reconcile st s now).2 = Except.error e →
      fetchUpdatedAt (reconcile st s now).1 = fetchUpdatedAt st) ∧
    fetchStatus st =
      { nodes := st.nodes, jobs := st.jobs, partitions := st.partitions,
        updated_at := (fetchUpdatedAt st).getD "" } := by
  refine ⟨?_, ?_, rfl⟩
  · intro v h
    rw [(reconcile_ok_store h).1]
    rfl
  · intro e h
    rw [reconcile_error_store h]

/-- Witness for C6 (amended): after committing the worked example at time
t1 the probe reads t1, and a subsequent failed reconciliation leaves it at
t1. -/
theorem staleness_probe_witness :
    fetchUpdatedAt store1 = some "t1" ∧
    fetchUpdatedAt (reconcile store1 badSnap "t2").1 = some "t1" := by
  constructor
  · exact (staleness_probe_reports_timestamp emptyStore goodSnap "t1").1 1 rfl
  · have h2 := (staleness_probe_reports_timestamp store1 badSnap "t2").2.1
      RecError.MalformedSnapshot rfl
    rw [h2]
    rfl

/-- C7 counterexample: "allocations" is one of the four entity kinds the
claim requires an accessor for, yet the API surface of
`src/unnamed/part_007` exposes no such endpoint. -/
theorem api_allocations_accessor_missing :
    "allocations" ∈ ["nodes", "jobs", "partitions", "allocations"] ∧
    apiEndpoints.contains "allocations" = false := by decide

/-- C7 (amended): the query interface exposes entity-scoped read accessors
for nodes, jobs, and partitions individually (plus the full-status and
updated_at reads), but none for allocations; each accessor reads only the
committed store, so a failed reconciliation leaves every accessor output
unchanged. -/
theorem entity_accessors_committed (st : Store) (s : Snapshot) (now : String) :
    ("nodes" ∈ apiEndpoints ∧ "jobs" ∈ apiEndpoints ∧
      "partitions" ∈ apiEndpoints ∧ "status" ∈ apiEndpoints ∧
      "updated_at" ∈ apiEndpoints ∧ apiEndpoints.contains "allocations" = false) ∧
    (∀ e, (reconcile st s now).2 = Except.error e →
      fetchNodes (reconcile st s now).1 = fetchNodes st ∧
      fetchJobs (reconcile st s now).1 = fetchJobs st ∧
      fetchPartitions (reconcile st s now).1 = fetchPartitions st) ∧
    (fetchNodes st = st.nodes ∧ fetchJobs st = st.jobs ∧
      fetchPartitions st = st.partitions) := by
  refine ⟨by decide, ?_, rfl, rfl, rfl⟩
  intro e h
  rw [reconcile_error_store h]
  exact ⟨rfl, rfl, rfl⟩

/-- Witness for C7 (amended): a failed reconciliation leaves the node
accessor's output unchanged. -/
theorem entity_accessors_witness :
    fetchNodes (reconcile store1 badSnap "t2").1 = fetchNodes store1 :=
  ((entity_accessors_committed store1 badSnap "t2").2.1
    RecError.MalformedSnapshot rfl).1

/-- C8 counterexample: the node status enum of `types.ts` is closed over
IDLE, MIX, ALLOC, DOWN, and none of its members is named or valued Unknown,
Mixed, or Allocated — so the claimed five-member set is not its member
set. -/
theorem nodeStatus_members_counterexample :
    (∀ x : NodeStatus, x ∈ nodeStatusAll) ∧
    (nodeStatusAll.map NodeStatus.val).contains "Unknown" = false ∧
    (nodeStatusAll.map NodeStatus.val).contains "Mixed" = false ∧
    (nodeStatusAll.map NodeStatus.val).contains "Allocated" = false := by
  decide

/-- C8 (amended): all three status types of `types.ts` are closed tagged
variants; the node status type has exactly the members Idle, Mix, Alloc,
Down, the job status type exactly Pending, Running, Completed, Failed,
Cancelled, Unknown, and the partition status type exactly Up, Down,
Unknown. -/
theorem status_enums_closed :
    (nodeStatusAll.map NodeStatus.val = ["Idle", "Mix", "Alloc", "Down"] ∧
      ∀ x : NodeStatus, x ∈ nodeStatusAll) ∧
    (jobStatusAll.map JobStatus.val =
        ["Pending", "Running", "Completed", "Failed", "Cancelled", "Unknown"] ∧
      ∀ x : JobStatus, x ∈ jobStatusAll) ∧
    (partitionStatusAll.map PartitionStatus.val = ["Up", "Down", "Unknown"] ∧
      ∀ x : PartitionStatus, x ∈ partitionStatusAll) := by
  decide

/-! ## Correctness of the search-string scan -/

/-- The startsWith scan succeeds exactly when the needle is a leading
segment of the haystack. -/
theorem jsStartsWith_iff (hay needle : List Char) :
    jsStartsWith hay needle = true ↔ ∃ rest, hay = needle ++ rest := by
  induction needle generalizing hay with
  | nil =>
    simp [jsStartsWith]
  | cons d ds ih =>
    cases hay with
    | nil => simp [jsStartsWith]
    | cons c cs =>
      simp only [jsStartsWith, Bool.and_eq_true, beq_iff_eq, ih,
        List.cons_append]
      constructor
      · rintro ⟨rfl, rest, rfl⟩
        exact ⟨rest, rfl⟩
      · rintro ⟨rest, heq⟩
        injection heq with h1 h2
        exact ⟨h1, rest, h2⟩

/-- The includes scan succeeds exactly when the needle occurs as a
contiguous segment of the haystack. -/
theorem jsIncludesAux_iff (needle hay : List Char) :
    jsIncludesAux needle hay = true ↔ ∃ pre post, hay = pre ++ needle ++ post := by
  induction hay with
  | nil =>
    simp only [jsIncludesAux, List.isEmpty_iff]
    constructor
    · rintro rfl
      exact ⟨[], [], rfl⟩
    · rintro ⟨pre, post, h⟩
      rcases List.append_eq_nil.1 h.symm with ⟨h1, h2⟩
      rcases List.append_eq_nil.1 h1 with ⟨_, h3⟩
      exact h3
  | cons c t ih =>
    simp only [jsIncludesAux, Bool.or_eq_true, jsStartsWith_iff, ih]
    constructor
    · rintro (⟨rest, heq⟩ | ⟨pre, post, heq⟩)
      · exact ⟨[], rest, by simpa using heq⟩
      · exact ⟨c :: pre, post, by simp [heq]⟩
    · rintro ⟨pre, post, heq⟩
      cases pre with
      | nil =>
        exact Or.inl ⟨post, by simpa using heq⟩
      | cons p ps =>
        have heq2 : c :: t = p :: (ps ++ needle ++ post) := by simpa using heq
        injection heq2 with h1 h2
        exact Or.inr ⟨ps, post, h2⟩

/-- The lowercased includes scan decides the case-insensitive containment
predicate. -/
theorem jsIncludes_toLower_iff (hay s : String) :
    jsIncludes (jsToLower hay) (jsToLower s) = true ↔ containsCI hay s :=
  jsIncludesAux_iff (jsToLower s).toList (jsToLower hay).toList

/-- C9: Job search filter correctness — with an empty search string
filteredJobs returns the input list unchanged; with a nonempty one it
returns a sublist of the input (the original order preserved) containing
exactly the jobs whose user, job id, or partition contains the search
string case-insensitively. -/
theorem filteredJobs_correct (jobs : List Job) (s : String) :
    (s = "" → filteredJobs s jobs = jobs) ∧
    (s ≠ "" →
      (filteredJobs s jobs).Sublist jobs ∧
      ∀ j, j ∈ filteredJobs s jobs ↔ j ∈ jobs ∧ matchesSearch s j) := by
  constructor
  · intro h
    simp [filteredJobs, h]
  · intro h
    constructor
    · simp only [filteredJobs, if_neg h]
      exact List.filter_sublist _
    · intro j
      simp only [filteredJobs, if_neg h, List.mem_filter, Bool.or_eq_true,
        jsIncludes_toLower_iff, matchesSearch, or_assoc]

/-- A concrete job list for the search witness. -/
def jobA : Job :=
  { job_id := "100", user := "Alice", partition := "batch",
    state := JobState.RUNNING, num_nodes := 1, num_cpus := 4,
    time_limit := none, start_time := none, submit_time := "t0" }

/-- A second concrete job for the search witness. -/
def jobB : Job :=
  { job_id := "200", user := "bob", partition := "gpu",
    state := JobState.PENDING, num_nodes := 1, num_cpus := 2,
    time_limit := none, start_time := none, submit_time := "t0" }

/-- Witness for C9: the empty search returns the list unchanged, and the
search "ali" keeps jobA (user Alice, case-insensitively matched) while its
membership is characterized by the match predicate. -/
theorem filteredJobs_witness :
    filteredJobs "" [jobA, jobB] = [jobA, jobB] ∧
    filteredJobs "ali" [jobA, jobB] = [jobA] ∧
    (jobA ∈ filteredJobs "ali" [jobA, jobB] ∧ matchesSearch "ali" jobA) := by
  refine ⟨(filteredJobs_correct [jobA, jobB] "").1 rfl, by rfl, ?_⟩
  have hmem : jobA ∈ filteredJobs "ali" [jobA, jobB] := by decide
  have h := ((filteredJobs_correct [jobA, jobB] "ali").2 (by decide)).2 jobA
  exact ⟨hmem, (h.1 hmem).2⟩

/-- C10: Node-card rendering is not total over the declared Node type — the
NodeList card of `src/unnamed/part_003` reads the property `features`,
which the Node type of `src/unnamed/part_001` does not declare, so for
every well-typed node the `node.features.length` access dereferences
`undefined` and rendering throws a TypeError. -/
theorem nodeCard_undefined_field_access :
    ("features" ∈ nodeCardReadFields ∧
      nodeTypeFields.contains "features" = false) ∧
    ∀ n : Node, renderNodeCard n =
      Except.error "TypeError: undefined has no length" := by
  refine ⟨by decide, ?_⟩
  intro n
  rfl
